import Mathlib

set_option maxRecDepth 100000

/-!
Shallow embedding of the `ai-interview-analyzer` backend
(`src/unnamed/part_000`, an Express server exposing `POST /analyze`).

The embedding models:
* the JSON values produced by `JSON.parse` (`Json`, `JSON.parse`),
* the fenced-code-block extraction
  `analysisText.match(/```json\n([\s\S]*?)\n```/)` (`jsonMatch1`,
  `extractPayload`),
* the poll loop of `uploadFileToGemini` (`pollLoop`, `uploadFileToGemini`),
* the `/analyze` request handler (`analyzeHandler`) over an environment
  `Env` that supplies the outcomes of all external effects (multer's
  parsed upload, the remote file service, the generation call).

Non-termination of the unbounded poll loop is modelled with fuel:
`analyzeHandler env fuel = none` means the request is still suspended in
the poll loop after `fuel` poll iterations; a result that holds for every
`fuel` means the request never completes.
-/

namespace Analyzer

/-- Remote file processing state.  The data model of the service exposes
`PROCESSING`, `ACTIVE` and `FAILED`; the source compares `file.state`
against the strings `"PROCESSING"` and `"FAILED"`. -/
inductive FileState where
  | PROCESSING
  | ACTIVE
  | FAILED
deriving DecidableEq, Repr

/-- The remote file record returned by `fileManager.uploadFile` /
`fileManager.getFile` (the fields the handler reads: `name`,
`displayName`, `mimeType`, `uri`, `state`). -/
structure RemoteFile where
  name : String
  displayName : String
  mimeType : String
  uri : String
  state : FileState
deriving DecidableEq, Repr

/-- The fields of `req.file` that the handler reads (multer's parsed
single-file upload). -/
structure ReqFile where
  path : String
  originalname : String
  mimetype : String
deriving DecidableEq, Repr

/-- JSON values as produced by `JSON.parse`.  Numbers are kept as exact
decimals in normalized scientific form `mantissa * 10 ^ exp10` (trailing
zeros stripped from the mantissa, zero is `(0, 0)`), so two numeral
lexemes denote equal `Json.num` values exactly when they denote the same
decimal number.  (JavaScript stores numbers as IEEE doubles; for the
small integer scores exercised here the two agree.)  Object members keep
insertion order and a duplicated key overwrites the earlier value, as in
JavaScript. -/
inductive Json where
  | null : Json
  | bool (b : Bool) : Json
  | num (mantissa : Int) (exp10 : Int) : Json
  | str (s : String) : Json
  | arr (elems : List Json) : Json
  | obj (members : List (String × Json)) : Json
deriving Repr

namespace Json

/-- JSON whitespace (`space`, `tab`, `line feed`, `carriage return`). -/
def isWs (c : Char) : Bool :=
  c = ' ' || c = '\t' || c = '\n' || c = '\r'

/-- Drop leading JSON whitespace. -/
def skipWs : List Char → List Char
  | [] => []
  | c :: cs => if isWs c then skipWs cs else c :: cs

/-- Value of a hexadecimal digit. -/
def hexVal (c : Char) : Option Nat :=
  if '0' ≤ c ∧ c ≤ '9' then some (c.toNat - '0'.toNat)
  else if 'a' ≤ c ∧ c ≤ 'f' then some (c.toNat - 'a'.toNat + 10)
  else if 'A' ≤ c ∧ c ≤ 'F' then some (c.toNat - 'A'.toNat + 10)
  else none

/-- Read exactly four hexadecimal digits. -/
def readHex4 : List Char → Option (Nat × List Char)
  | a :: b :: c :: d :: rest =>
    match hexVal a, hexVal b, hexVal c, hexVal d with
    | some x, some y, some z, some w => some (((x * 16 + y) * 16 + z) * 16 + w, rest)
    | _, _, _, _ => none
  | _ => none

/-- Decode one string-escape character (the character after `\`),
excluding `\u`. -/
def escChar (c : Char) : Option Char :=
  if c = '"' then some '"'
  else if c = '\\' then some '\\'
  else if c = '/' then some '/'
  else if c = 'b' then some (Char.ofNat 8)
  else if c = 'f' then some (Char.ofNat 12)
  else if c = 'n' then some '\n'
  else if c = 'r' then some (Char.ofNat 13)
  else if c = 't' then some '\t'
  else none

/-- Body of a JSON string after the opening quote: returns the decoded
characters and the input remaining after the closing quote.  Unescaped
control characters are rejected, as `JSON.parse` rejects them.  A `\u`
escape denoting a surrogate code unit is mapped to U+FFFD (a model
simplification: JavaScript strings keep raw UTF-16 code units, which a
Unicode-scalar `Char` cannot represent; no claim exercises surrogates). -/
def parseStringBody (fuel : Nat) (cs : List Char) : Option (List Char × List Char) :=
  match fuel, cs with
  | 0, _ => none
  | _, [] => none
  | fuel + 1, c :: cs =>
    if c = '"' then some ([], cs)
    else if c = '\\' then
      match cs with
      | [] => none
      | e :: cs2 =>
        if e = 'u' then
          match readHex4 cs2 with
          | none => none
          | some (n, cs3) =>
            let ch := if 0xD800 ≤ n ∧ n ≤ 0xDFFF then Char.ofNat 0xFFFD else Char.ofNat n
            match parseStringBody fuel cs3 with
            | none => none
            | some (s, rest) => some (ch :: s, rest)
        else
          match escChar e with
          | none => none
          | some ch =>
            match parseStringBody fuel cs2 with
            | none => none
            | some (s, rest) => some (ch :: s, rest)
    else if c.toNat < 0x20 then none
    else
      match parseStringBody fuel cs with
      | none => none
      | some (s, rest) => some (c :: s, rest)

/-- Read a maximal run of decimal digits. -/
def readDigits : List Char → (List Char × List Char)
  | [] => ([], [])
  | c :: cs =>
    if c.isDigit then
      let (ds, rest) := readDigits cs
      (c :: ds, rest)
    else ([], c :: cs)

/-- Numeric value of a digit run. -/
def digitsToNat (ds : List Char) : Nat :=
  ds.foldl (fun acc c => acc * 10 + (c.toNat - '0'.toNat)) 0

/-- Strip trailing decimal zeros from a mantissa, bumping the exponent
(fuel bounds the number of strips). -/
def stripZeros : Nat → Int → Int → Int × Int
  | 0, m, e => (m, e)
  | fuel + 1, m, e =>
    if m ≠ 0 ∧ m % 10 = 0 then stripZeros fuel (m / 10) (e + 1) else (m, e)

/-- Normalize `(mantissa, exp10)`: strip trailing zeros; canonical zero. -/
def normNum (m : Int) (e : Int) : Int × Int :=
  if m = 0 then (0, 0) else stripZeros m.natAbs m e

/-- JSON number literal, per the JSON grammar (`-?int frac? exp?` with no
leading zeros).  Returns the normalized exact decimal value. -/
def parseNumber (cs : List Char) : Option ((Int × Int) × List Char) :=
  let (neg, cs1) :=
    match cs with
    | '-' :: rest => (true, rest)
    | _ => (false, cs)
  let (intDs, cs2) := readDigits cs1
  match intDs with
  | [] => none
  | d0 :: drest =>
    if d0 = '0' ∧ drest ≠ [] then none  -- leading zero rejected
    else
      let (fracDs, cs3) :=
        match cs2 with
        | '.' :: rest =>
          let (ds, r) := readDigits rest
          (some ds, r)
        | _ => (none, cs2)
      match fracDs with
      | some [] => none  -- a dot must be followed by digits
      | _ =>
        let frac := fracDs.getD []
        let (expOk, expVal, cs4) :=
          match cs3 with
          | 'e' :: rest => expTail rest
          | 'E' :: rest => expTail rest
          | _ => (true, (0 : Int), cs3)
        if expOk then
          let mag : Nat := digitsToNat (intDs ++ frac)
          let m : Int := if neg then -(mag : Int) else (mag : Int)
          some (normNum m (expVal - (frac.length : Int)), cs4)
        else none
where
  /-- Exponent part after `e`/`E`: optional sign then digits. -/
  expTail (cs : List Char) : Bool × Int × List Char :=
    let (sgn, cs') :=
      match cs with
      | '+' :: rest => ((1 : Int), rest)
      | '-' :: rest => ((-1 : Int), rest)
      | _ => ((1 : Int), cs)
    let (ds, rest) := readDigits cs'
    match ds with
    | [] => (false, 0, cs)
    | _ => (true, sgn * (digitsToNat ds : Int), rest)

/-- Insert a member into an object, overwriting an existing key in place
(JavaScript object semantics for duplicated JSON keys). -/
def insertKV (k : String) (v : Json) : List (String × Json) → List (String × Json)
  | [] => [(k, v)]
  | (k', v') :: rest =>
    if k' = k then (k', v) :: rest else (k', v') :: insertKV k v rest

mutual

/-- One JSON value, leading whitespace allowed.  Fuel bounds recursion
depth; `JSON.parse` supplies enough fuel for any input. -/
def parseValue : Nat → List Char → Option (Json × List Char)
  | 0, _ => none
  | fuel + 1, cs =>
    match skipWs cs with
    | [] => none
    | c :: cs' =>
      if c = '"' then
        match parseStringBody (cs'.length + 1) cs' with
        | none => none
        | some (s, rest) => some (.str ⟨s⟩, rest)
      else if c = '{' then
        match skipWs cs' with
        | '}' :: rest => some (.obj [], rest)
        | cs'' => parseMembers fuel cs'' []
      else if c = '[' then
        match skipWs cs' with
        | ']' :: rest => some (.arr [], rest)
        | cs'' => parseElems fuel cs'' []
      else if c = 't' then
        match cs' with
        | 'r' :: 'u' :: 'e' :: rest => some (.bool true, rest)
        | _ => none
      else if c = 'f' then
        match cs' with
        | 'a' :: 'l' :: 's' :: 'e' :: rest => some (.bool false, rest)
        | _ => none
      else if c = 'n' then
        match cs' with
        | 'u' :: 'l' :: 'l' :: rest => some (.null, rest)
        | _ => none
      else
        match parseNumber (c :: cs') with
        | none => none
        | some ((m, e), rest) => some (.num m e, rest)

/-- Object members from the first key onward (after `{` and any
whitespace, not at a closing brace). -/
def parseMembers : Nat → List Char → List (String × Json) → Option (Json × List Char)
  | 0, _, _ => none
  | fuel + 1, cs, acc =>
    match cs with
    | '"' :: cs1 =>
      match parseStringBody (cs1.length + 1) cs1 with
      | none => none
      | some (k, cs2) =>
        match skipWs cs2 with
        | ':' :: cs3 =>
          match parseValue fuel cs3 with
          | none => none
          | some (v, cs4) =>
            let acc' := insertKV ⟨k⟩ v acc
            match skipWs cs4 with
            | ',' :: cs5 => parseMembers fuel (skipWs cs5) acc'
            | '}' :: cs5 => some (.obj acc', cs5)
            | _ => none
        | _ => none
    | _ => none

/-- Array elements from the first element onward (after `[` and any
whitespace, not at a closing bracket). -/
def parseElems : Nat → List Char → List Json → Option (Json × List Char)
  | 0, _, _ => none
  | fuel + 1, cs, acc =>
    match parseValue fuel cs with
    | none => none
    | some (v, cs1) =>
      match skipWs cs1 with
      | ',' :: cs2 => parseElems fuel cs2 (acc ++ [v])
      | ']' :: cs2 => some (.arr (acc ++ [v]), cs2)
      | _ => none

end

/-- Field lookup in a JSON object (first member with the given key). -/
def getField (j : Json) (k : String) : Option Json :=
  match j with
  | .obj ms => ms.lookup k
  | _ => none

end Json

namespace JSON

/-- Model of `JSON.parse`: one JSON value, surrounding whitespace
allowed, nothing after it.  `none` models a thrown `SyntaxError`. -/
def parse (s : String) : Option Json :=
  match Json.parseValue (2 * s.data.length + 8) s.data with
  | none => none
  | some (j, rest) => if Json.skipWs rest = [] then some j else none

end JSON

/-! Fenced-block extraction.

Model of `analysisText.match(/```json\n([\s\S]*?)\n```/)`: the regex
engine takes the leftmost starting position at which the whole pattern
matches, and the lazy `([\s\S]*?)` makes the capture end at the earliest
following newline-plus-triple-backtick (so with several fenced blocks the first one wins). -/

/-- The literal opening delimiter: three backticks, `json`, newline (8 characters). -/
def fenceOpen : List Char := ("```json\n").data

/-- The closing delimiter: a newline followed by three backticks (4 characters). -/
def fenceClose : List Char := ("\n```").data

/-- The backquote character, the first character of the opening fence
(written via its code point, 96). -/
def backquote : Char := Char.ofNat 96

/-- Check that `cs` begins with `p`. -/
def startsWithL : List Char → List Char → Bool
  | [], _ => true
  | _ :: _, [] => false
  | p :: ps, c :: cs => p = c && startsWithL ps cs

/-- Index of the first occurrence of `pat` in `cs`. -/
def findSub (pat : List Char) : List Char → Option Nat
  | [] => if startsWithL pat [] then some 0 else none
  | c :: cs =>
    if startsWithL pat (c :: cs) then some 0
    else (findSub pat cs).map (· + 1)

/-- Scan for the leftmost position opening a fenced block that is closed
later; return the (lazy, i.e. shortest) capture of group 1. -/
def matchAux : List Char → Option (List Char)
  | [] => none
  | c :: cs =>
    if startsWithL fenceOpen (c :: cs) then
      match findSub fenceClose (List.drop fenceOpen.length (c :: cs)) with
      | some j => some (List.take j (List.drop fenceOpen.length (c :: cs)))
      | none => matchAux cs
    else matchAux cs

/-- Capture group 1 of `analysisText.match(/```json\n([\s\S]*?)\n```/)`;
`none` when the whole regex has no match. -/
def jsonMatch1 (s : String) : Option String :=
  (matchAux s.data).map fun cs => ⟨cs⟩

/-- The payload the handler goes on to parse.  The source guards with
`if (!jsonMatch || !jsonMatch[1])`: an empty capture group is falsy in
JavaScript, so an empty payload is treated the same as no match. -/
def extractPayload (s : String) : Option String :=
  match jsonMatch1 s with
  | none => none
  | some r => if r = "" then none else some r

/-! The poll loop and the request handler. -/

/-- Fixed delay in milliseconds between two polls of the remote file
state (`setTimeout(resolve, 10000)` in the source). -/
def pollIntervalMs : Nat := 10000

/-- Environment of one request: the outcomes of every external effect
the handler performs.  `Except.error ()` models a thrown/rejected call
(the error text is only logged, so it is not carried). -/
structure Env where
  /-- Value of `req.file` as left by `upload.single('video')`; `none` when the
  multipart field `video` is missing. -/
  reqFile : Option ReqFile
  /-- Outcome of `fileManager.uploadFile(...)` (the `.file` field on
  success). -/
  uploadResult : Except Unit RemoteFile
  /-- Outcome of the `k`-th `fileManager.getFile(...)` call, `k = 0, 1, …`. -/
  getFile : Nat → Except Unit RemoteFile
  /-- Outcome of `model.generateContent([...])` followed by
  `response.text()`, as a function of the file handle passed in. -/
  generate : RemoteFile → Except Unit String
  /-- Outcome of `fileManager.deleteFile(videoFile.name)`. -/
  deleteRemote : Except Unit Unit

/-- The `while (file.state === "PROCESSING")` loop: sleep
`pollIntervalMs`, call `getFile`, repeat.  `none` means the loop is
still running after `fuel` iterations (the source has no client-side
bound, so no fuel is enough when every poll stays `PROCESSING`). -/
def pollLoop (getFile : Nat → Except Unit RemoteFile) :
    Nat → Nat → RemoteFile → Option (Except Unit RemoteFile)
  | fuel, k, f =>
    if f.state = FileState.PROCESSING then
      match fuel with
      | 0 => none
      | fuel + 1 =>
        match getFile k with
        | .error e => some (.error e)
        | .ok f' => pollLoop getFile fuel (k + 1) f'
    else some (.ok f)

/-- Model of `uploadFileToGemini`: upload, poll while `PROCESSING`, throw if the
final state is `FAILED`, otherwise return the file. -/
def uploadFileToGemini (env : Env) (fuel : Nat) : Option (Except Unit RemoteFile) :=
  match env.uploadResult with
  | .error e => some (.error e)
  | .ok f0 =>
    match pollLoop env.getFile fuel 0 f0 with
    | none => none
    | some (.error e) => some (.error e)
    | some (.ok f) =>
      if f.state = FileState.FAILED then some (.error ())
      else some (.ok f)

/-- One `res.status(s).json(b)` call. -/
structure Response where
  status : Nat
  body : Json
deriving Repr

/-- Everything observable about one handled request. -/
structure Outcome where
  /-- The `res.status(..).json(..)` calls, in order.  HTTP delivers only
  the first one: a later call on an already-sent response cannot reach
  the client (see `clientResponse`). -/
  responses : List Response
  /-- Whether multer stored a temporary file (it does exactly when the
  `video` field was present, i.e. `req.file` is set). -/
  tempFileCreated : Bool
  /-- Number of `fs.unlinkSync(tempFilePath)` calls (the `finally`). -/
  unlinkCalls : Nat
  /-- Whether `fileManager.uploadFile` was called. -/
  uploadAttempted : Bool
  /-- The handle passed to `model.generateContent`, when it was called. -/
  generatedWith : Option RemoteFile
  /-- Whether `fileManager.deleteFile` was called. -/
  deleteRemoteAttempted : Bool
deriving Repr

/-- The response the client actually receives: the first one sent. -/
def clientResponse (o : Outcome) : Option Response :=
  o.responses.head?

/-- Body `{ error: 'No video file uploaded.' }`. -/
def noVideoBody : Json := .obj [("error", .str "No video file uploaded.")]

/-- Body `{ error: 'Failed to analyze ... check the server logs.' }`. -/
def failBody : Json :=
  .obj [("error", .str "Failed to analyze the video. Please check the server logs.")]

/-- The `app.post('/analyze', upload.single('video'), …)` handler.
`none` models a request that never completes (still suspended in the
poll loop after `fuel` iterations).  Each branch mirrors one exit path
of the source: the `finally` block runs `fs.unlinkSync` exactly once on
every path that leaves the `try`/`catch`. -/
def analyzeHandler (env : Env) (fuel : Nat) : Option Outcome :=
  match env.reqFile with
  | none =>
    -- `return res.status(400).json({ error: 'No video file uploaded.' })`
    -- before the try, so no temp file, no cleanup, no further processing
    some { responses := [⟨400, noVideoBody⟩], tempFileCreated := false,
           unlinkCalls := 0, uploadAttempted := false,
           generatedWith := none, deleteRemoteAttempted := false }
  | some _ =>
    match uploadFileToGemini env fuel with
    | none => none
    | some (.error _) =>
      -- upload, poll or FAILED-state error → catch → 500, finally → unlink
      some { responses := [⟨500, failBody⟩], tempFileCreated := true,
             unlinkCalls := 1, uploadAttempted := true,
             generatedWith := none, deleteRemoteAttempted := false }
    | some (.ok videoFile) =>
      match env.generate videoFile with
      | .error _ =>
        some { responses := [⟨500, failBody⟩], tempFileCreated := true,
               unlinkCalls := 1, uploadAttempted := true,
               generatedWith := some videoFile, deleteRemoteAttempted := false }
      | .ok analysisText =>
        match extractPayload analysisText with
        | none =>
          -- `throw new Error("Could not extract JSON from AI response.")`
          some { responses := [⟨500, failBody⟩], tempFileCreated := true,
                 unlinkCalls := 1, uploadAttempted := true,
                 generatedWith := some videoFile, deleteRemoteAttempted := false }
        | some rawJson =>
          match JSON.parse rawJson with
          | none =>
            -- `JSON.parse` throws → catch → 500
            some { responses := [⟨500, failBody⟩], tempFileCreated := true,
                   unlinkCalls := 1, uploadAttempted := true,
                   generatedWith := some videoFile, deleteRemoteAttempted := false }
          | some analysisJson =>
            match env.deleteRemote with
            | .ok _ =>
              some { responses := [⟨200, analysisJson⟩], tempFileCreated := true,
                     unlinkCalls := 1, uploadAttempted := true,
                     generatedWith := some videoFile, deleteRemoteAttempted := true }
            | .error _ =>
              -- deleteFile rejected after the 200 was sent: the catch
              -- logs and calls `res.status(500).json(...)` again, but
              -- that second send cannot reach the client
              some { responses := [⟨200, analysisJson⟩, ⟨500, failBody⟩],
                     tempFileCreated := true, unlinkCalls := 1,
                     uploadAttempted := true, generatedWith := some videoFile,
                     deleteRemoteAttempted := true }

/-! Concrete sample data used by witnesses and counterexamples. -/

/-- A stored upload, as multer would leave it. -/
def sampleReq : ReqFile := ⟨"uploads/abc123", "vid.mp4", "video/mp4"⟩

/-- A remote file already in state `ACTIVE`. -/
def activeRemote : RemoteFile :=
  ⟨"files/xyz", "vid.mp4", "video/mp4", "https://files/xyz", .ACTIVE⟩

/-- The same remote file while still `PROCESSING`. -/
def processingRemote : RemoteFile := { activeRemote with state := .PROCESSING }

/-- The same remote file after remote processing `FAILED`. -/
def failedRemote : RemoteFile := { activeRemote with state := .FAILED }

/-- The example payload of the spec (inner JSON text; `\x7b`/`\x7d` are
the brace characters). -/
def exampleInner : String :=
  "\x7b\"english_speaking\":\x7b\"score\":7,\"reasoning\":\"clear\"\x7d,\"confidence\":\x7b\"score\":8,\"reasoning\":\"steady\"\x7d,\"humility\":\x7b\"score\":9,\"reasoning\":\"grounded\"\x7d,\"overall_summary\":\"Strong communicator.\"\x7d"

/-- The spec's example raw model output: the payload in a fenced block
with a prefix and a suffix (and a stray space before the closing fence). -/
def exampleRaw : String := "prefix ```json\n" ++ exampleInner ++ " \n``` suffix"

/-- The `Json` value the example payload denotes. -/
def exampleJson : Json :=
  .obj [("english_speaking", .obj [("score", .num 7 0), ("reasoning", .str "clear")]),
        ("confidence", .obj [("score", .num 8 0), ("reasoning", .str "steady")]),
        ("humility", .obj [("score", .num 9 0), ("reasoning", .str "grounded")]),
        ("overall_summary", .str "Strong communicator.")]

/-- A small fenced model output whose payload is valid JSON but has none
of the schema's fields. -/
def miniRaw : String := "```json\n\x7b\"a\":1\x7d\n```"

/-- The payload of `miniRaw`. -/
def miniJson : Json := .obj [("a", .num 1 0)]

/-- Environment of a fully successful request. -/
def envOk : Env :=
  { reqFile := some sampleReq, uploadResult := .ok activeRemote,
    getFile := fun _ => .ok activeRemote,
    generate := fun _ => .ok exampleRaw, deleteRemote := .ok () }

/-- Request with the `video` field missing. -/
def envMissing : Env := { envOk with reqFile := none }

/-- The generation call rejects. -/
def envGenFail : Env := { envOk with generate := fun _ => .error () }

/-- Remote deletion rejects after a successful analysis of `miniRaw`. -/
def envDelFail : Env :=
  { envOk with generate := fun _ => .ok miniRaw, deleteRemote := .error () }

/-- The remote file never leaves `PROCESSING`. -/
def envStuck : Env :=
  { envOk with uploadResult := .ok processingRemote,
               getFile := fun _ => .ok processingRemote }

/-- The remote file goes `PROCESSING` → `FAILED` on the first poll. -/
def envFailed : Env :=
  { envOk with uploadResult := .ok processingRemote,
               getFile := fun _ => .ok failedRemote }

/-- Model output with no fenced block at all. -/
def envNoFence : Env := { envOk with generate := fun _ => .ok "no fence here" }

/-- Model output whose fenced payload is not valid JSON. -/
def envBadJson : Env :=
  { envOk with generate := fun _ => .ok "```json\nnot json\n```" }

/-- Model output whose fenced payload is valid JSON but does not have
the response schema's shape. -/
def envOffSchema : Env := { envOk with generate := fun _ => .ok miniRaw }

/-- Model output whose JSON sits on the same line as the fence markers. -/
def sameLineRaw : String := "```json \x7b\"a\":1\x7d ```"

/-- Model output containing two fenced blocks. -/
def twoBlockRaw : String :=
  "```json\n\x7b\"a\":1\x7d\n``` middle ```json\n\x7b\"b\":2\x7d\n```"

/-- Model output whose opening fence lacks the newline after `json`. -/
def noNlOpenRaw : String := "```json\x7b\"a\":1\x7d\n```"

/-- Model output whose closing fence lacks the newline before it. -/
def noNlCloseRaw : String := "```json\n\x7b\"a\":1\x7d```"

/-- Environment whose model output is `sameLineRaw`. -/
def envSameLine : Env := { envOk with generate := fun _ => .ok sameLineRaw }

/-- The capture the regex produces on `exampleRaw` (the payload plus the
stray space before the closing fence; `JSON.parse` tolerates it). -/
def examplePayload : String := exampleInner ++ " "

/-! Named outcome values, one per exit path of the handler (these are
definitionally the records `analyzeHandler` builds; naming them keeps
the claim statements readable). -/

/-- Outcome of the missing-file early return. -/
def out400 : Outcome :=
  { responses := [⟨400, noVideoBody⟩], tempFileCreated := false,
    unlinkCalls := 0, uploadAttempted := false,
    generatedWith := none, deleteRemoteAttempted := false }

/-- Outcome of any caught error after the upload began; `gw` records the
handle passed to the generation call when it was reached. -/
def outFail (gw : Option RemoteFile) : Outcome :=
  { responses := [⟨500, failBody⟩], tempFileCreated := true,
    unlinkCalls := 1, uploadAttempted := true,
    generatedWith := gw, deleteRemoteAttempted := false }

/-- Outcome of the fully successful path. -/
def outOk (j : Json) (vf : RemoteFile) : Outcome :=
  { responses := [⟨200, j⟩], tempFileCreated := true,
    unlinkCalls := 1, uploadAttempted := true,
    generatedWith := some vf, deleteRemoteAttempted := true }

/-- Outcome of the path where the remote delete rejects after the 200
was sent (the catch makes a second, ineffective send). -/
def outOkDelFail (j : Json) (vf : RemoteFile) : Outcome :=
  { responses := [⟨200, j⟩, ⟨500, failBody⟩], tempFileCreated := true,
    unlinkCalls := 1, uploadAttempted := true,
    generatedWith := some vf, deleteRemoteAttempted := true }

/-! Response schema, as the spec describes it. -/

/-- Modelled from the spec: a scored category is an object with a
numeric `score` and a string `reasoning`. -/
def isCategory (j : Json) : Bool :=
  match j.getField "score", j.getField "reasoning" with
  | some (.num _ _), some (.str _) => true
  | _, _ => false

/-- Modelled from the spec: the documented 200-response shape
`english_speaking`/`confidence`/`humility` categories plus a string
`overall_summary` (spec, section 6).  The source performs no such
validation; this definition exists to compare the spec's words with what
the code returns. -/
def matchesAnalysisSchema (j : Json) : Bool :=
  match j.getField "english_speaking", j.getField "confidence",
        j.getField "humility", j.getField "overall_summary" with
  | some e, some c, some h, some (.str _) => isCategory e && isCategory c && isCategory h
  | _, _, _, _ => false

/-! Helper lemmas about the poll loop. -/

/-- A file returned by the poll loop is no longer `PROCESSING` (the loop
only exits on a non-`PROCESSING` state). -/
theorem pollLoop_ok_not_processing (getFile : Nat → Except Unit RemoteFile) :
    ∀ (fuel k : Nat) (f g : RemoteFile),
      pollLoop getFile fuel k f = some (.ok g) → g.state ≠ FileState.PROCESSING := by
  intro fuel
  induction fuel with
  | zero =>
    intro k f g h
    rw [pollLoop] at h
    by_cases hp : f.state = FileState.PROCESSING
    · simp [hp] at h
    · simp [hp] at h
      rw [← h]
      exact hp
  | succ fuel ih =>
    intro k f g h
    rw [pollLoop] at h
    by_cases hp : f.state = FileState.PROCESSING
    · simp [hp] at h
      cases hg : getFile k with
      | error e => rw [hg] at h; simp at h
      | ok f' =>
        rw [hg] at h
        exact ih (k + 1) f' g h
    · simp [hp] at h
      rw [← h]
      exact hp

/-- A file returned by `uploadFileToGemini` is `ACTIVE`: the loop exit
rules out `PROCESSING` and the explicit check rules out `FAILED`. -/
theorem uploadFileToGemini_ok_active (env : Env) (fuel : Nat) (f : RemoteFile)
    (h : uploadFileToGemini env fuel = some (.ok f)) : f.state = FileState.ACTIVE := by
  cases hu : env.uploadResult with
  | error e => simp only [uploadFileToGemini, hu] at h; simp at h
  | ok f0 =>
    simp only [uploadFileToGemini, hu] at h
    cases hp : pollLoop env.getFile fuel 0 f0 with
    | none => rw [hp] at h; simp at h
    | some r =>
      rw [hp] at h
      cases r with
      | error e => simp at h
      | ok g =>
        have hnp := pollLoop_ok_not_processing env.getFile fuel 0 f0 g hp
        by_cases hf : g.state = FileState.FAILED
        · simp [hf] at h
        · simp [hf] at h
          rw [← h]
          cases hs : g.state with
          | PROCESSING => exact absurd hs hnp
          | ACTIVE => rfl
          | FAILED => exact absurd hs hf

/-- While every poll keeps answering `PROCESSING`, the loop makes no
progress: no amount of fuel reaches an exit. -/
theorem pollLoop_stuck (getFile : Nat → Except Unit RemoteFile)
    (hall : ∀ k, ∃ g, getFile k = .ok g ∧ g.state = FileState.PROCESSING) :
    ∀ (fuel k : Nat) (f : RemoteFile), f.state = FileState.PROCESSING →
      pollLoop getFile fuel k f = none := by
  intro fuel
  induction fuel with
  | zero =>
    intro k f hp
    rw [pollLoop]
    simp [hp]
  | succ fuel ih =>
    intro k f hp
    rw [pollLoop]
    obtain ⟨g, hg, hgp⟩ := hall k
    simp [hp, hg]
    exact ih (k + 1) g hgp

/-- As soon as one poll answer leaves `PROCESSING` (or the poll call
itself rejects), the loop exits: fuel one past that index suffices. -/
theorem pollLoop_exits (getFile : Nat → Except Unit RemoteFile) :
    ∀ (j k : Nat) (f : RemoteFile),
      (∀ g, getFile (k + j) = .ok g → g.state ≠ FileState.PROCESSING) →
      pollLoop getFile (j + 1) k f ≠ none := by
  intro j
  induction j with
  | zero =>
    intro k f hj
    rw [pollLoop]
    by_cases hp : f.state = FileState.PROCESSING
    · simp [hp]
      cases hg : getFile k with
      | error e => simp
      | ok f' =>
        have hnp : f'.state ≠ FileState.PROCESSING := hj f' (by simpa using hg)
        simp [pollLoop, hnp]
    · simp [hp]
  | succ j ih =>
    intro k f hj
    rw [pollLoop]
    by_cases hp : f.state = FileState.PROCESSING
    · simp [hp]
      cases hg : getFile k with
      | error e => simp
      | ok f' =>
        exact ih (k + 1) f' (by intro g hg'; exact hj g (by rw [show k + 1 + j = k + (j + 1) by omega] at hg'; exact hg'))
    · simp [hp]

/-- Exhaustive case analysis of `analyzeHandler`: a terminating request
follows exactly one exit path of the source, and each path determines
the whole outcome. -/
theorem analyzeHandler_cases (env : Env) (fuel : Nat) (o : Outcome)
    (h : analyzeHandler env fuel = some o) :
    (env.reqFile = none ∧ o = out400) ∨
    (env.reqFile ≠ none ∧
      ((uploadFileToGemini env fuel = some (.error ()) ∧ o = outFail none) ∨
       (∃ vf, uploadFileToGemini env fuel = some (.ok vf) ∧
         ((env.generate vf = .error () ∧ o = outFail (some vf)) ∨
          (∃ t, env.generate vf = .ok t ∧
            (((extractPayload t).bind JSON.parse = none ∧ o = outFail (some vf)) ∨
             (∃ r j, extractPayload t = some r ∧ JSON.parse r = some j ∧
               ((env.deleteRemote = .ok () ∧ o = outOk j vf) ∨
                (env.deleteRemote = .error () ∧ o = outOkDelFail j vf))))))))) := by
  cases hr : env.reqFile with
  | none =>
    left
    simp only [analyzeHandler, hr] at h
    simp only [Option.some.injEq] at h
    exact ⟨rfl, h.symm⟩
  | some rf =>
    right
    refine ⟨by simp [hr], ?_⟩
    simp only [analyzeHandler, hr] at h
    cases hu : uploadFileToGemini env fuel with
    | none => rw [hu] at h; simp at h
    | some res =>
      rw [hu] at h
      cases res with
      | error e =>
        dsimp only at h
        simp only [Option.some.injEq] at h
        exact Or.inl ⟨rfl, h.symm⟩
      | ok vf =>
        dsimp only at h
        refine Or.inr ⟨vf, rfl, ?_⟩
        cases hg : env.generate vf with
        | error e =>
          rw [hg] at h
          dsimp only at h
          simp only [Option.some.injEq] at h
          exact Or.inl ⟨rfl, h.symm⟩
        | ok t =>
          rw [hg] at h
          dsimp only at h
          refine Or.inr ⟨t, rfl, ?_⟩
          cases he : extractPayload t with
          | none =>
            rw [he] at h
            dsimp only at h
            simp only [Option.some.injEq] at h
            exact Or.inl ⟨rfl, h.symm⟩
          | some r =>
            rw [he] at h
            dsimp only at h
            cases hj : JSON.parse r with
            | none =>
              rw [hj] at h
              dsimp only at h
              simp only [Option.some.injEq] at h
              exact Or.inl ⟨by simp [hj], h.symm⟩
            | some j =>
              rw [hj] at h
              dsimp only at h
              refine Or.inr ⟨r, j, rfl, hj, ?_⟩
              cases hd : env.deleteRemote with
              | ok u =>
                rw [hd] at h
                dsimp only at h
                simp only [Option.some.injEq] at h
                exact Or.inl ⟨rfl, h.symm⟩
              | error e =>
                rw [hd] at h
                dsimp only at h
                simp only [Option.some.injEq] at h
                exact Or.inr ⟨rfl, h.symm⟩

/-- C1: for every terminating request that carried an upload field, the
temporary local file was created and `fs.unlinkSync` ran on it exactly
once (the `finally` block covers every exit path of the try/catch). -/
theorem temp_file_deleted_exactly_once (env : Env) (fuel : Nat) (o : Outcome)
    (h : analyzeHandler env fuel = some o) (hf : env.reqFile.isSome = true) :
    o.tempFileCreated = true ∧ o.unlinkCalls = 1 := by
  rcases analyzeHandler_cases env fuel o h with ⟨hn, -⟩ | ⟨-, hc⟩
  · rw [hn] at hf; simp at hf
  · rcases hc with ⟨-, rfl⟩ | ⟨vf, -, hc⟩
    · exact ⟨rfl, rfl⟩
    rcases hc with ⟨-, rfl⟩ | ⟨t, -, hc⟩
    · exact ⟨rfl, rfl⟩
    rcases hc with ⟨-, rfl⟩ | ⟨r, j, -, -, hc⟩
    · exact ⟨rfl, rfl⟩
    rcases hc with ⟨-, rfl⟩ | ⟨-, rfl⟩ <;> exact ⟨rfl, rfl⟩

/-- Witness for C1: the fully successful sample request creates the
temporary file and unlinks it exactly once. -/
theorem temp_file_deleted_exactly_once_witness :
    (analyzeHandler envOk 1 = some (outOk exampleJson activeRemote)) ∧
    ((outOk exampleJson activeRemote).tempFileCreated = true ∧
     (outOk exampleJson activeRemote).unlinkCalls = 1) :=
  ⟨rfl, temp_file_deleted_exactly_once envOk 1 (outOk exampleJson activeRemote) rfl rfl⟩

/-- The handler can only fail to terminate inside the poll loop:
whenever `uploadFileToGemini` returns, the whole request terminates. -/
theorem analyzeHandler_none (env : Env) (fuel : Nat)
    (h : analyzeHandler env fuel = none) : uploadFileToGemini env fuel = none := by
  cases hu : uploadFileToGemini env fuel with
  | none => rfl
  | some res =>
    exfalso
    cases hrf : env.reqFile with
    | none => simp [analyzeHandler, hrf] at h
    | some rf =>
      cases res with
      | error e => simp [analyzeHandler, hrf, hu] at h
      | ok vf =>
        cases hg : env.generate vf with
        | error e => simp [analyzeHandler, hrf, hu, hg] at h
        | ok t =>
          cases he : extractPayload t with
          | none => simp [analyzeHandler, hrf, hu, hg, he] at h
          | some r =>
            cases hj : JSON.parse r with
            | none => simp [analyzeHandler, hrf, hu, hg, he, hj] at h
            | some j =>
              cases hd : env.deleteRemote with
              | ok u => simp [analyzeHandler, hrf, hu, hg, he, hj, hd] at h
              | error e => simp [analyzeHandler, hrf, hu, hg, he, hj, hd] at h

/-- `uploadFileToGemini` itself can only fail to terminate inside
`pollLoop`. -/
theorem uploadFileToGemini_none (env : Env) (fuel : Nat)
    (h : uploadFileToGemini env fuel = none) :
    ∃ f0, env.uploadResult = .ok f0 ∧ pollLoop env.getFile fuel 0 f0 = none := by
  cases hur : env.uploadResult with
  | error e => simp [uploadFileToGemini, hur] at h
  | ok f0 =>
    refine ⟨f0, rfl, ?_⟩
    cases hpl : pollLoop env.getFile fuel 0 f0 with
    | none => rfl
    | some r =>
      exfalso
      cases r with
      | error e => simp [uploadFileToGemini, hur, hpl] at h
      | ok g =>
        by_cases hf : g.state = FileState.FAILED <;>
          simp [uploadFileToGemini, hur, hpl, hf] at h

/-- C3: a request whose `video` field is missing gets the fixed 400
response immediately: no temporary file is stored, no remote upload (and
hence no polling), no generation and no remote delete happen. -/
theorem missing_video_field_400 (env : Env) (fuel : Nat)
    (h : env.reqFile = none) : analyzeHandler env fuel = some out400 := by
  simp only [analyzeHandler, h]
  rfl

/-- Witness for C3: the sample request without an upload field. -/
theorem missing_video_field_400_witness :
    envMissing.reqFile = none ∧ analyzeHandler envMissing 0 = some out400 :=
  ⟨rfl, missing_video_field_400 envMissing 0 rfl⟩

/-- C5: when polling ends at remote state `FAILED`, the request answers
with the single generic 500 and the generation call is never made. -/
theorem failed_state_aborts (env : Env) (fuel : Nat) (o : Outcome) (f0 g : RemoteFile)
    (hr : env.reqFile.isSome = true)
    (hu : env.uploadResult = .ok f0)
    (hp : pollLoop env.getFile fuel 0 f0 = some (.ok g))
    (hgs : g.state = FileState.FAILED)
    (h : analyzeHandler env fuel = some o) :
    o.responses = [⟨500, failBody⟩] ∧ o.generatedWith = none := by
  have hupl : uploadFileToGemini env fuel = some (.error ()) := by
    simp [uploadFileToGemini, hu, hp, hgs]
  obtain ⟨rf, hrf⟩ := Option.isSome_iff_exists.mp hr
  simp only [analyzeHandler, hrf, hupl] at h
  simp only [Option.some.injEq] at h
  rw [← h]
  exact ⟨rfl, rfl⟩

/-- Witness for C5: the sample request whose first poll reports
`FAILED`. -/
theorem failed_state_aborts_witness :
    (analyzeHandler envFailed 1 = some (outFail none)) ∧
    ((outFail none).responses = [⟨500, failBody⟩] ∧ (outFail none).generatedWith = none) :=
  ⟨rfl, failed_state_aborts envFailed 1 (outFail none) processingRemote failedRemote
    rfl rfl rfl rfl rfl⟩

/-- C8: whatever handle the generation call receives is in state
`ACTIVE` — the poll loop returns only on a non-`PROCESSING` state and
`uploadFileToGemini` throws on `FAILED`, which in the service's
three-state model leaves only `ACTIVE`. -/
theorem generation_requires_active (env : Env) (fuel : Nat) (o : Outcome) (f : RemoteFile)
    (h : analyzeHandler env fuel = some o) (hgw : o.generatedWith = some f) :
    f.state = FileState.ACTIVE := by
  rcases analyzeHandler_cases env fuel o h with ⟨-, rfl⟩ | ⟨-, hc⟩
  · simp [out400] at hgw
  · rcases hc with ⟨-, rfl⟩ | ⟨vf, hvf, hc⟩
    · simp [outFail] at hgw
    · have hact := uploadFileToGemini_ok_active env fuel vf hvf
      rcases hc with ⟨-, rfl⟩ | ⟨t, -, hc⟩
      · simp only [outFail, Option.some.injEq] at hgw
        exact hgw ▸ hact
      rcases hc with ⟨-, rfl⟩ | ⟨r, j, -, -, hc⟩
      · simp only [outFail, Option.some.injEq] at hgw
        exact hgw ▸ hact
      rcases hc with ⟨-, rfl⟩ | ⟨-, rfl⟩
      · simp only [outOk, Option.some.injEq] at hgw
        exact hgw ▸ hact
      · simp only [outOkDelFail, Option.some.injEq] at hgw
        exact hgw ▸ hact

/-- Witness for C8: on the successful sample request the generation call
received the `ACTIVE` handle. -/
theorem generation_requires_active_witness :
    (analyzeHandler envOk 1 = some (outOk exampleJson activeRemote)) ∧
    activeRemote.state = FileState.ACTIVE :=
  ⟨rfl, generation_requires_active envOk 1 (outOk exampleJson activeRemote) activeRemote
    rfl rfl⟩

/-- Counterexample to C2 as stated: in this request the
`RemoteFileHandle` is successfully obtained (the upload helper returns
the `ACTIVE` handle), yet because the generation call rejects, the catch
path runs and `fileManager.deleteFile` is never called — the remote file
is not deleted on failure paths. -/
theorem remote_delete_skipped_on_failure_path :
    uploadFileToGemini envGenFail 1 = some (.ok activeRemote) ∧
    analyzeHandler envGenFail 1 = some (outFail (some activeRemote)) ∧
    (outFail (some activeRemote)).deleteRemoteAttempted = false :=
  ⟨rfl, rfl, rfl⟩

/-- C2 amended: remote deletion is attempted exactly when the flow
reached the success point, i.e. exactly when the client-visible response
is the 200; and when the already-attempted deletion rejects, the catch
logs and makes a second (dead) `res.status(500)` call but the
client-visible response remains the 200 that was already sent. -/
theorem remote_delete_only_on_success (env : Env) (fuel : Nat) (o : Outcome)
    (h : analyzeHandler env fuel = some o) :
    (o.deleteRemoteAttempted = true ↔ (clientResponse o).map Response.status = some 200) ∧
    (env.deleteRemote = .error () → o.deleteRemoteAttempted = true →
      ∃ j vf, o = outOkDelFail j vf ∧ clientResponse o = some ⟨200, j⟩) := by
  rcases analyzeHandler_cases env fuel o h with ⟨-, rfl⟩ | ⟨-, hc⟩
  · constructor
    · simp [out400, clientResponse]
    · intro _ hd
      simp [out400] at hd
  · rcases hc with ⟨-, rfl⟩ | ⟨vf, -, hc⟩
    · constructor
      · simp [outFail, clientResponse]
      · intro _ hd
        simp [outFail] at hd
    rcases hc with ⟨-, rfl⟩ | ⟨t, -, hc⟩
    · constructor
      · simp [outFail, clientResponse]
      · intro _ hd
        simp [outFail] at hd
    rcases hc with ⟨-, rfl⟩ | ⟨r, j, -, -, hc⟩
    · constructor
      · simp [outFail, clientResponse]
      · intro _ hd
        simp [outFail] at hd
    rcases hc with ⟨hdel, rfl⟩ | ⟨hdel, rfl⟩
    · constructor
      · simp [outOk, clientResponse]
      · intro herr _
        rw [hdel] at herr
        simp at herr
    · constructor
      · simp [outOkDelFail, clientResponse]
      · intro _ _
        exact ⟨j, vf, rfl, rfl⟩

/-- Witness for C2 (amended): the sample request whose remote delete
rejects still shows the 200 to the client. -/
theorem remote_delete_only_on_success_witness :
    (analyzeHandler envDelFail 1 = some (outOkDelFail miniJson activeRemote)) ∧
    ((outOkDelFail miniJson activeRemote).deleteRemoteAttempted = true ↔
      (clientResponse (outOkDelFail miniJson activeRemote)).map Response.status = some 200) :=
  ⟨rfl, (remote_delete_only_on_success envDelFail 1 (outOkDelFail miniJson activeRemote) rfl).1⟩

/-- C6: extraction is all-or-nothing.  If the model output has no
(non-empty) fenced payload, or its payload is not valid JSON, the only
response the handler ever sends is the single generic 500 — no partial
or structured payload is produced. -/
theorem extraction_all_or_nothing (env : Env) (fuel : Nat) (o : Outcome) (t : String)
    (hr : env.reqFile.isSome = true)
    (hgen : ∀ f, env.generate f = .ok t)
    (hbad : (extractPayload t).bind JSON.parse = none)
    (h : analyzeHandler env fuel = some o) :
    o.responses = [⟨500, failBody⟩] := by
  rcases analyzeHandler_cases env fuel o h with ⟨hn, -⟩ | ⟨-, hc⟩
  · rw [hn] at hr; simp at hr
  · rcases hc with ⟨-, rfl⟩ | ⟨vf, -, hc⟩
    · rfl
    rcases hc with ⟨-, rfl⟩ | ⟨t', hgt, hc⟩
    · rfl
    have ht : t' = t := by
      have hgv := hgen vf
      rw [hgt] at hgv
      exact Except.ok.inj hgv
    subst ht
    rcases hc with ⟨-, rfl⟩ | ⟨r, j, he, hj, -⟩
    · rfl
    · rw [he] at hbad
      simp [hj] at hbad

/-- Witness for C6: a fence-less model output and a non-JSON payload
both end in the single 500. -/
theorem extraction_all_or_nothing_witness :
    ((extractPayload "no fence here").bind JSON.parse = none) ∧
    (analyzeHandler envBadJson 1 = some (outFail (some activeRemote))) ∧
    ((outFail (some activeRemote)).responses = [⟨500, failBody⟩]) :=
  ⟨rfl, rfl,
    extraction_all_or_nothing envNoFence 1 (outFail (some activeRemote)) "no fence here"
      rfl (fun _ => rfl) rfl rfl⟩

/-- C7: round-trip exactness.  Whenever the flow reaches a model output
whose fenced payload parses, the 200 body is that parsed payload, with
no transformation beyond deserialization; and on the spec's example
input the extracted payload parses to a result whose
`confidence.score` is exactly 8. -/
theorem extraction_round_trip :
    (∀ (env : Env) (fuel : Nat) (o : Outcome) (vf : RemoteFile) (t r : String) (j : Json),
      env.reqFile.isSome = true →
      uploadFileToGemini env fuel = some (.ok vf) →
      env.generate vf = .ok t →
      extractPayload t = some r →
      JSON.parse r = some j →
      analyzeHandler env fuel = some o →
      clientResponse o = some ⟨200, j⟩) ∧
    (extractPayload exampleRaw = some examplePayload ∧
     JSON.parse examplePayload = some exampleJson ∧
     (exampleJson.getField "confidence").bind (fun c => c.getField "score") =
       some (.num 8 0)) := by
  constructor
  · intro env fuel o vf t r j hr hvf hgen he hj h
    rcases analyzeHandler_cases env fuel o h with ⟨hn, -⟩ | ⟨-, hc⟩
    · rw [hn] at hr; simp at hr
    · rcases hc with ⟨hup, rfl⟩ | ⟨vf', hvf', hc⟩
      · rw [hup] at hvf; simp at hvf
      have hv : vf' = vf := by
        rw [hvf'] at hvf
        simpa using hvf
      subst hv
      rcases hc with ⟨hgt, rfl⟩ | ⟨t', hgt, hc⟩
      · rw [hgen] at hgt; simp at hgt
      have ht : t = t' := by
        rw [hgen] at hgt
        simpa using hgt
      subst ht
      rcases hc with ⟨hbad, rfl⟩ | ⟨r', j', he', hj', hc⟩
      · rw [he] at hbad
        simp [hj] at hbad
      have hr' : r = r' := by
        rw [he] at he'
        simpa using he'
      subst hr'
      have hj'' : j = j' := by
        rw [hj] at hj'
        simpa using hj'
      subst hj''
      rcases hc with ⟨-, rfl⟩ | ⟨-, rfl⟩
      · rfl
      · rfl
  · exact ⟨rfl, rfl, rfl⟩

/-- Witness for C7: the successful sample request returns status 200
with exactly the example payload as body. -/
theorem extraction_round_trip_witness :
    (analyzeHandler envOk 1 = some (outOk exampleJson activeRemote)) ∧
    clientResponse (outOk exampleJson activeRemote) = some ⟨200, exampleJson⟩ :=
  ⟨rfl, extraction_round_trip.1 envOk 1 (outOk exampleJson activeRemote) activeRemote
    exampleRaw examplePayload exampleJson rfl rfl rfl rfl rfl rfl⟩

/-- Counterexample to C9 as stated: a 200 response whose body does not
match the documented schema.  The code passes `JSON.parse`'s result to
the client with no validation, so a fenced payload of `{"a":1}` yields a
200 body without the three categories or the summary. -/
theorem success_body_schema_violation :
    analyzeHandler envOffSchema 1 = some (outOk miniJson activeRemote) ∧
    clientResponse (outOk miniJson activeRemote) = some ⟨200, miniJson⟩ ∧
    matchesAnalysisSchema miniJson = false :=
  ⟨rfl, rfl, rfl⟩

/-- C9 amended: every 200 response body is exactly the JSON parsed from
the fenced payload of the model output — the code performs no schema
validation, so the body matches the documented shape exactly when the
model's payload does. -/
theorem success_body_unvalidated (env : Env) (fuel : Nat) (o : Outcome) (r : Response)
    (h : analyzeHandler env fuel = some o)
    (hcr : clientResponse o = some r) (h200 : r.status = 200) :
    o.generatedWith.bind (fun vf => (env.generate vf).toOption.bind
      (fun t => (extractPayload t).bind JSON.parse)) = some r.body := by
  rcases analyzeHandler_cases env fuel o h with ⟨-, rfl⟩ | ⟨-, hc⟩
  · simp [out400, clientResponse] at hcr
    rw [← hcr] at h200
    simp at h200
  · rcases hc with ⟨-, rfl⟩ | ⟨vf, -, hc⟩
    · simp [outFail, clientResponse] at hcr
      rw [← hcr] at h200
      simp at h200
    rcases hc with ⟨-, rfl⟩ | ⟨t, hgt, hc⟩
    · simp [outFail, clientResponse] at hcr
      rw [← hcr] at h200
      simp at h200
    rcases hc with ⟨-, rfl⟩ | ⟨r', j, he, hj, hc⟩
    · simp [outFail, clientResponse] at hcr
      rw [← hcr] at h200
      simp at h200
    rcases hc with ⟨-, rfl⟩ | ⟨-, rfl⟩
    · simp only [outOk, clientResponse, List.head?, Option.some.injEq] at hcr
      rw [← hcr]
      simp [outOk, Except.toOption, hgt, he, hj]
    · simp only [outOkDelFail, clientResponse, List.head?, Option.some.injEq] at hcr
      rw [← hcr]
      simp [outOkDelFail, Except.toOption, hgt, he, hj]

/-- Witness for C9 (amended): on the off-schema sample request the 200
body is exactly the parsed payload. -/
theorem success_body_unvalidated_witness :
    (analyzeHandler envOffSchema 1 = some (outOk miniJson activeRemote)) ∧
    (outOk miniJson activeRemote).generatedWith.bind
      (fun vf => (envOffSchema.generate vf).toOption.bind
        (fun t => (extractPayload t).bind JSON.parse)) =
      some (Response.mk 200 miniJson).body :=
  ⟨rfl, success_body_unvalidated envOffSchema 1 (outOk miniJson activeRemote)
    ⟨200, miniJson⟩ rfl rfl rfl⟩

/-- C4: the poll loop waits the fixed 10-second interval between polls
and has no client-side bound.  If the remote state never leaves
`PROCESSING` the request never completes (no amount of fuel reaches an
exit), and as soon as one poll answer leaves `PROCESSING` (or the poll
call rejects) the request terminates. -/
theorem poll_loop_unbounded :
    pollIntervalMs = 10000 ∧
    (∀ (env : Env) (f0 : RemoteFile), env.reqFile.isSome = true →
      env.uploadResult = .ok f0 → f0.state = FileState.PROCESSING →
      (∀ k, ∃ g, env.getFile k = .ok g ∧ g.state = FileState.PROCESSING) →
      ∀ fuel, analyzeHandler env fuel = none) ∧
    (∀ (env : Env) (j : Nat),
      (∀ g, env.getFile j = .ok g → g.state ≠ FileState.PROCESSING) →
      analyzeHandler env (j + 1) ≠ none) := by
  refine ⟨rfl, ?_, ?_⟩
  · intro env f0 hr hu hp hall fuel
    obtain ⟨rf, hrf⟩ := Option.isSome_iff_exists.mp hr
    have hloop := pollLoop_stuck env.getFile hall fuel 0 f0 hp
    simp [analyzeHandler, hrf, uploadFileToGemini, hu, hloop]
  · intro env j hj hnone
    have hup := analyzeHandler_none env (j + 1) hnone
    obtain ⟨f0, -, hpl⟩ := uploadFileToGemini_none env (j + 1) hup
    exact pollLoop_exits env.getFile j 0 f0 (fun g hg => hj g (by simpa using hg)) hpl

/-- Witness for C4: the always-`PROCESSING` sample request is still
running after 5 polls, while the sample request whose first poll answers
`FAILED` terminates. -/
theorem poll_loop_unbounded_witness :
    analyzeHandler envStuck 5 = none ∧ analyzeHandler envFailed 1 ≠ none :=
  ⟨poll_loop_unbounded.2.1 envStuck processingRemote rfl rfl rfl
      (fun _ => ⟨processingRemote, rfl, rfl⟩) 5,
   poll_loop_unbounded.2.2 envFailed 0
      (fun g hg => by
        have h : failedRemote = g := Except.ok.inj hg
        rw [← h]
        decide)⟩

/-! Lemmas about the regex scan, leading to C10. -/

/-- A list starts with itself followed by anything. -/
theorem startsWithL_append (p x : List Char) : startsWithL p (p ++ x) = true := by
  induction p with
  | nil => rfl
  | cons c cs ih => simp [startsWithL, ih]

/-- A non-empty pattern is found at index 0 of itself followed by
anything. -/
theorem findSub_self (pat rest : List Char) (hne : pat ≠ []) :
    findSub pat (pat ++ rest) = some 0 := by
  cases pat with
  | nil => exact absurd rfl hne
  | cons c cs =>
    have hs : startsWithL (c :: cs) (c :: (cs ++ rest)) = true := by
      have h := startsWithL_append (c :: cs) rest
      simpa using h
    simp [findSub, hs]

/-- If the capture contains no newline, the closing fence is first found
exactly where it was appended: no occurrence can start inside the
capture (the pattern starts with a newline), and none can straddle the
boundary (the pattern's remaining characters are backquotes, not
newlines). -/
theorem findSub_fenceClose (m rest : List Char) (hm : '\n' ∉ m) :
    findSub fenceClose (m ++ fenceClose ++ rest) = some m.length := by
  induction m with
  | nil => simpa using findSub_self fenceClose rest (by decide)
  | cons c m' ih =>
    have hc : c ≠ '\n' := fun h => hm (h ▸ List.mem_cons_self c m')
    have hm' : '\n' ∉ m' := fun h => hm (List.mem_cons_of_mem c h)
    have hsw : startsWithL fenceClose (c :: (m' ++ fenceClose ++ rest)) = false := by
      rw [(by decide : fenceClose = '\n' :: ("```").data)]
      simp [startsWithL, Ne.symm hc]
    have ih' := ih hm'
    simp only [List.append_assoc] at hsw ih'
    simp [findSub, hsw, ih']

/-- When the scanner stands on a position that opens a fenced block that
is closed later, it returns the capture up to the first close. -/
theorem matchAux_found (cs : List Char) (hne : cs ≠ [])
    (h : startsWithL fenceOpen cs = true) (j : Nat)
    (hf : findSub fenceClose (List.drop fenceOpen.length cs) = some j) :
    matchAux cs = some (List.take j (List.drop fenceOpen.length cs)) := by
  cases cs with
  | nil => exact absurd rfl hne
  | cons c cs' => simp [matchAux, h, hf]

/-- When the scanner stands on a position that does not open a fence, it
moves one character right. -/
theorem matchAux_skip (c : Char) (cs : List Char)
    (h : startsWithL fenceOpen (c :: cs) = false) :
    matchAux (c :: cs) = matchAux cs := by
  simp [matchAux, h]

/-- First-block law of the regex: with a backquote-free prefix and a
newline-free capture, the scan captures exactly the content of the first
fenced block, whatever follows (including further fenced blocks). -/
theorem matchAux_first_block (pre m rest : List Char)
    (hpre : backquote ∉ pre) (hm : '\n' ∉ m) :
    matchAux (pre ++ (fenceOpen ++ (m ++ (fenceClose ++ rest)))) = some m := by
  induction pre with
  | nil =>
    simp only [List.nil_append]
    have h1 : startsWithL fenceOpen (fenceOpen ++ (m ++ (fenceClose ++ rest))) = true :=
      startsWithL_append _ _
    have h2 : findSub fenceClose
        (List.drop fenceOpen.length (fenceOpen ++ (m ++ (fenceClose ++ rest)))) =
        some m.length := by
      rw [List.drop_left]
      rw [← List.append_assoc]
      exact findSub_fenceClose m rest hm
    have h3 := matchAux_found (fenceOpen ++ (m ++ (fenceClose ++ rest)))
      (by
        intro h0
        have hl := congrArg List.length h0
        rw [List.length_append, List.length_nil] at hl
        have h8 : fenceOpen.length = 8 := by decide
        omega)
      h1 m.length h2
    rw [h3, List.drop_left, List.take_left]
  | cons c pre' ih =>
    have hc : c ≠ backquote := fun h => hpre (h ▸ List.mem_cons_self c pre')
    have hpre' : backquote ∉ pre' := fun h => hpre (List.mem_cons_of_mem c h)
    have hsw : startsWithL fenceOpen
        (c :: (pre' ++ (fenceOpen ++ (m ++ (fenceClose ++ rest))))) = false := by
      rw [(by decide : fenceOpen = backquote :: ("``json\n").data)]
      simp [startsWithL, Ne.symm hc]
    simp only [List.cons_append]
    rw [matchAux_skip c _ hsw]
    exact ih hpre'

/-- C10: the extraction demands the exact fence format.  JSON on the
same line as the fence markers (or a missing newline on either side) is
not extracted and ends in the 500 format error; with several fenced
blocks the first one is extracted and parsed; and in general — for a
backquote-free prefix and single-line capture — the scan returns exactly
the first block's content. -/
theorem fence_format_and_first_block :
    (jsonMatch1 sameLineRaw = none ∧ jsonMatch1 noNlOpenRaw = none ∧
     jsonMatch1 noNlCloseRaw = none) ∧
    analyzeHandler envSameLine 1 = some (outFail (some activeRemote)) ∧
    (jsonMatch1 twoBlockRaw = some "\x7b\"a\":1\x7d" ∧
     (extractPayload twoBlockRaw).bind JSON.parse = some miniJson) ∧
    (∀ pre m rest : List Char, backquote ∉ pre → '\n' ∉ m →
      matchAux (pre ++ (fenceOpen ++ (m ++ (fenceClose ++ rest)))) = some m) :=
  ⟨⟨rfl, rfl, rfl⟩, rfl, ⟨rfl, rfl⟩, matchAux_first_block⟩

/-- Witness for C10: a concrete two-block input for the general
first-block law. -/
theorem fence_format_and_first_block_witness :
    (backquote ∉ ("x ").data ∧ '\n' ∉ ("1").data) ∧
    matchAux (("x ").data ++ (fenceOpen ++ (("1").data ++
      (fenceClose ++ (" tail ```json\n2\n```").data)))) = some (("1").data) :=
  ⟨⟨by decide, by decide⟩,
   fence_format_and_first_block.2.2.2 (("x ").data) (("1").data)
     ((" tail ```json\n2\n```").data) (by decide) (by decide)⟩

end Analyzer
